import Mathlib

/-!
# Verification development for `i2p.plugins.tor-manager` (package `tbget`)

A shallow embedding of `get/get.go`.  Go strings and byte slices are both
modelled by `String`; the filesystem, the network, subprocesses, the archive
decoder and the OpenPGP library are explicit parameters (`Env`) or explicit
state (`World`).  Output written by `t.Log`, `log.Println` and `fmt.Printf` is
not part of the state, except for the countdown of `TestHTTPProxy`.
-/

set_option autoImplicit false

namespace Tbget

/-! ## Outcomes -/

/-- Outcome of a Go call returning `(value, error)`: a value with a nil error, a
non-nil error, a run-time panic, or the process exit of `log.Fatal`. -/
inductive Res (α : Type) where
  | ok (a : α)
  | error (msg : String)
  | panic (msg : String)
  | fatal (msg : String)
  deriving DecidableEq, Repr

/-- Whether the returned `error` is nil. -/
def Res.isOk {α : Type} : Res α → Bool
  | .ok _ => true
  | _ => false

/-! ## Filesystem state -/

/-- One filesystem object: a regular file with its content and permission bits,
or a directory. -/
inductive Node where
  | file (content : String) (mode : Nat)
  | dir
  deriving DecidableEq, Repr

/-- The filesystem maps a path to the object stored there, if any.  Paths are
tracked independently of each other. -/
abbrev FS := String → Option Node

/-- Store `n` at `path`. -/
def FS.set (fs : FS) (path : String) (n : Node) : FS :=
  fun p => if p = path then some n else fs p

/-- Owner-read permission bit (0400). -/
def readable (mode : Nat) : Bool := (mode / 256) % 2 == 1

/-- Owner-write permission bit (0200). -/
def writable (mode : Nat) : Bool := (mode / 128) % 2 == 1

/-- Externally visible actions, in the order they happen. -/
inductive Event where
  | httpGet (url : String)
  | exec (argv : List String)
  | unpackUpdater (binpath : String)
  deriving DecidableEq, Repr

/-- The mutable world: the filesystem and the actions performed so far. -/
structure World where
  fs : FS
  trace : List Event

/-- `FileExists` of the source: `os.Stat` does not report "not exist".  True for
directories as well. -/
def FileExists (fs : FS) (path : String) : Bool := (fs path).isSome

/-- `ioutil.ReadFile`. -/
def ReadFile (fs : FS) (path : String) : Except String String :=
  match fs path with
  | none => .error "no such file or directory"
  | some .dir => .error "is a directory"
  | some (.file c m) => if readable m then .ok c else .error "permission denied"

/-- `ioutil.WriteFile(path, data, 0644)`: creates the file with mode 0644 or
truncates an existing writable file, keeping its mode. -/
def WriteFile (fs : FS) (path : String) (data : String) : Except String Unit × FS :=
  match fs path with
  | none => (.ok (), fs.set path (.file data 420))
  | some .dir => (.error "is a directory", fs)
  | some (.file _ m) =>
    if writable m then (.ok (), fs.set path (.file data m)) else (.error "permission denied", fs)

/-- `os.MkdirAll(path, 0755)`, whose error every caller discards: creates the
directory when nothing is stored at `path`. -/
def MkdirAll (fs : FS) (path : String) : FS :=
  match fs path with
  | none => fs.set path .dir
  | some _ => fs

/-- `os.Create(path)`: creates the file (mode 0666) or truncates an existing
writable one. -/
def Create (fs : FS) (path : String) : Except String FS :=
  match fs path with
  | none => .ok (fs.set path (.file "" 438))
  | some .dir => .error "is a directory"
  | some (.file _ m) =>
    if writable m then .ok (fs.set path (.file "" m)) else .error "permission denied"

/-- `io.Copy(file, src)` into a file just created at `path`. -/
def Copy (fs : FS) (path : String) (data : String) : FS :=
  match fs path with
  | some (.file _ m) => fs.set path (.file data m)
  | _ => fs

/-- `file.Chmod(mode)`. -/
def Chmod (fs : FS) (path : String) (mode : Nat) : FS :=
  match fs path with
  | some (.file c _) => fs.set path (.file c mode)
  | _ => fs

/-! ## Manifest values -/

/-- A decoded JSON value, as `json.Unmarshal` stores it in an `interface{}`. -/
inductive JSON where
  | null
  | bool (b : Bool)
  | num (n : Int)
  | str (s : String)
  | arr (items : List JSON)
  | obj (fields : List (String × JSON))

/-- Go map indexing `m[key]` with the comma-ok form. -/
def lookup {α : Type} (key : String) : List (String × α) → Option α
  | [] => none
  | (k, v) :: rest => if k = key then some v else lookup key rest

/-- `strings.Split(ietf, "-")[0]`: the text before the first hyphen. -/
def primarySubtag (ietf : String) : String :=
  String.mk (ietf.data.takeWhile (fun c => c != '-'))

/-- The return statement
`langUpdater.(map[string]interface{})["binary"].(string), ...["sig"].(string), nil`;
a failed type assertion panics. -/
def entryURLs (langUpdater : JSON) : Res (String × String) :=
  match langUpdater with
  | .obj m =>
    match lookup "binary" m with
    | some (.str binary) =>
      match lookup "sig" m with
      | some (.str sig) => .ok (binary, sig)
      | _ => .panic "interface conversion"
    | _ => .panic "interface conversion"
  | _ => .panic "interface conversion"

/-! ## Environment -/

/-- One entry read from the tar stream. -/
structure TarEntry where
  Name : String
  isDir : Bool
  data : String
  mode : Nat
  deriving DecidableEq, Repr

/-- Everything the package obtains from outside: the Go runtime constants, path
manipulation of `path/filepath`, the JSON decoder, the network, subprocesses,
the xz/tar decoder and the OpenPGP library.  `ProxyGet u n` is the body of the
response to the `n`-th request sent through proxy `u`, if there was one. -/
structure Env where
  GOOS : String
  GOARCH : String
  Join : String → String → String
  Dir : String → String
  Unmarshal : String → Except String (List (String × JSON))
  Get : String → Except String String
  Run : List String → FS → Except String Unit × FS
  XzReader : String → Except String (List (Except String TarEntry))
  GetEntity : String → Except String String
  Verify : String → String → String → Except String Unit
  ParseURL : String → Bool
  ProxyGet : String → Nat → Option String

/-! ## Downloader state -/

/-- The `TBDownloader` struct.  `Profile` is the embedded asset set, read by
`ReadFile`. -/
structure TBDownloader where
  UnpackPath : String
  DownloadPath : String
  Lang : String
  OS : String
  ARCH : String
  Verbose : Bool
  Profile : String → Option String

/-- `GetRuntimePair` of the source: returns the platform key and the receiver,
whose `OS` and `ARCH` are overwritten when one of them was empty. -/
def GetRuntimePair (env : Env) (t : TBDownloader) : String × TBDownloader :=
  if t.OS ≠ "" ∧ t.ARCH ≠ "" then
    (t.OS ++ t.ARCH, t)
  else
    let os :=
      if env.GOOS = "darwin" then "osx"
      else if env.GOOS = "linux" then "linux"
      else if env.GOOS = "windows" then "win"
      else "unknown"
    let arch :=
      if env.GOARCH = "amd64" then "64"
      else if env.GOARCH = "386" then "32"
      else "unknown"
    let t' := { t with OS := os, ARCH := arch }
    if t'.OS ≠ "osx" then (t'.OS ++ t'.ARCH, t') else (t'.OS, t')

/-- `MakeTBDirectory` of the source; an error is the process exit of
`log.Fatal`. -/
def MakeTBDirectory (env : Env) (t : TBDownloader) (fs : FS) : Except String FS :=
  let fs := MkdirAll fs t.DownloadPath
  let key : Except String FS :=
    let empath := "tor-browser/TPO-signing-key.pub"
    let opath := env.Join t.DownloadPath "TPO-signing-key.pub"
    if !FileExists fs opath then
      match t.Profile empath with
      | none => .error "file does not exist"
      | some bytes =>
        match WriteFile fs opath bytes with
        | (.error err, _) => .error err
        | (.ok _, fs) => .ok fs
    else .ok fs
  match key with
  | .error err => .error err
  | .ok fs =>
    let empath := "tor-browser/unpack/awo@eyedeekay.github.io.xpi"
    let dpath := env.Join t.DownloadPath "awo@eyedeekay.github.io.xpi"
    let opath := env.Join t.UnpackPath "awo@eyedeekay.github.io.xpi"
    if !FileExists fs opath then
      match t.Profile empath with
      | none => .error "file does not exist"
      | some bytes =>
        let fs := MkdirAll fs (env.Dir dpath)
        let fs := MkdirAll fs (env.Dir opath)
        match WriteFile fs opath bytes with
        | (.error err, _) => .error err
        | (.ok _, fs) =>
          match WriteFile fs dpath bytes with
          | (.error err, _) => .error err
          | (.ok _, fs) => .ok fs
    else .ok fs

/-- `GetUpdaterForLangFromJSONBytes` of the source.  The first argument bounds
the depth of the recursive calls; `none` means the bound was exhausted before
the call returned. -/
def GetUpdaterForLangFromJSONBytes (env : Env) :
    Nat → TBDownloader → World → String → String →
      Option (Res (String × String) × TBDownloader × World)
  | 0, _, _, _, _ => none
  | fuel + 1, t, w, jsonBytes, ietf =>
    match MakeTBDirectory env t w.fs with
    | .error err => some (.fatal err, t, w)
    | .ok fs =>
      let w : World := { w with fs := fs }
      match env.Unmarshal jsonBytes with
      | .error err => some (.error ("func (t *TBDownloader)Name: " ++ err), t, w)
      | .ok dat =>
        match lookup "downloads" dat with
        | some platform =>
          let rtp := (GetRuntimePair env t).1
          let t := (GetRuntimePair env t).2
          match platform with
          | .obj platforms =>
            match lookup rtp platforms with
            | some (.obj updater) =>
              match lookup ietf updater with
              | some langUpdater => some (entryURLs langUpdater, t, w)
              | none =>
                let lang := primarySubtag ietf
                match lookup lang updater with
                | some langUpdater => some (entryURLs langUpdater, t, w)
                | none => GetUpdaterForLangFromJSONBytes env fuel t w jsonBytes t.Lang
            | some _ => some (.panic "interface conversion", t, w)
            | none =>
              some (.error ("t.GetUpdaterForLangFromJSONBytes: no updater for platform " ++ rtp), t, w)
          | _ => some (.panic "interface conversion", t, w)
        | none => some (.error ("t.GetUpdaterForLangFromJSONBytes: " ++ ietf), t, w)

/-- `BotherToDownload` of the source: the decision and the filesystem after the
deferred `ioutil.WriteFile` has run. -/
def BotherToDownload (env : Env) (t : TBDownloader) (fs : FS) (url name : String) : Bool × FS :=
  let path := env.Join t.DownloadPath name
  if !FileExists fs path then
    (true, fs)
  else
    let marker := env.Join t.DownloadPath (name ++ ".last-url")
    let ret :=
      match ReadFile fs marker with
      | .error _ => true
      | .ok lastURL => if lastURL = url then false else true
    (ret, (WriteFile fs marker url).2)

/-- `SingleFileDownload` of the source. -/
def SingleFileDownload (env : Env) (t : TBDownloader) (w : World) (url name : String) :
    Res String × World :=
  match MakeTBDirectory env t w.fs with
  | .error err => (.fatal err, w)
  | .ok fs =>
    let path := env.Join t.DownloadPath name
    let guard := BotherToDownload env t fs url name
    if !guard.1 then
      (.ok path, { w with fs := guard.2 })
    else
      let w : World := { fs := guard.2, trace := w.trace ++ [.httpGet url] }
      match env.Get url with
      | .error err => (.error ("SingleFileDownload: " ++ err), w)
      | .ok body =>
        match Create w.fs path with
        | .error err => (.error ("SingleFileDownload: " ++ err), w)
        | .ok fs => (.ok path, { w with fs := Copy fs path body })

/-- `BrowserDir` of the source. -/
def BrowserDir (env : Env) (t : TBDownloader) : String :=
  env.Join t.UnpackPath ("tor-browser_" ++ t.Lang)

/-- `os.Open(path)`. -/
def Open (fs : FS) (path : String) : Except String Node :=
  match fs path with
  | none => .error "no such file or directory"
  | some .dir => .ok .dir
  | some (.file c m) => if readable m then .ok (.file c m) else .error "permission denied"

/-- The extraction loop of `UnpackUpdater` over the entries of the tar stream:
the error that stopped it, if any, and the filesystem it leaves. -/
def extractEntries (env : Env) (dirName : String) :
    List (Except String TarEntry) → FS → Option String × FS
  | [], fs => (none, fs)
  | .error err :: _, fs => (some ("UnpackUpdater: Tar looper Error " ++ err), fs)
  | .ok header :: rest, fs =>
    if header.isDir then
      extractEntries env dirName rest (MkdirAll fs (env.Join dirName header.Name))
    else
      let filename := env.Join dirName header.Name
      match Create fs filename with
      | .error err => (some ("UnpackUpdater: Tar unpacker error " ++ err), fs)
      | .ok fs =>
        extractEntries env dirName rest (Chmod (Copy fs filename header.data) filename header.mode)

/-- `UnpackUpdater` of the source.  Entering the function is recorded in the
trace. -/
def UnpackUpdater (env : Env) (t : TBDownloader) (w : World) (binpath : String) :
    Res String × World :=
  let w : World := { w with trace := w.trace ++ [.unpackUpdater binpath] }
  if t.OS = "win" then
    let installPath := BrowserDir env t
    if !FileExists w.fs installPath then
      let argv := [binpath, "/S", "/D=" ++ installPath]
      let r := env.Run argv w.fs
      let w : World := { fs := r.2, trace := w.trace ++ [.exec argv] }
      match r.1 with
      | .error err => (.error ("UnpackUpdater: windows exec fail " ++ err), w)
      | .ok _ => (.ok installPath, w)
    else (.ok installPath, w)
  else if t.OS = "osx" then
    let argv := ["open", "-W", "-n", "-a", "\"" ++ t.UnpackPath ++ "\"", "\"" ++ binpath ++ "\""]
    let r := env.Run argv w.fs
    let w : World := { fs := r.2, trace := w.trace ++ [.exec argv] }
    match r.1 with
    | .error err => (.error ("UnpackUpdater: osx open/mount fail " ++ err), w)
    | .ok _ => (.ok t.UnpackPath, w)
  else if FileExists w.fs (BrowserDir env t) then
    (.ok (BrowserDir env t), w)
  else
    let w : World := { w with fs := MkdirAll w.fs t.UnpackPath }
    match Open w.fs t.UnpackPath with
    | .error err => (.error ("UnpackUpdater: directory error " ++ err), w)
    | .ok _ =>
      match Open w.fs binpath with
      | .error err => (.error ("UnpackUpdater: XZFile error " ++ err), w)
      | .ok .dir => (.error ("UnpackUpdater: XZReader error " ++ "is a directory"), w)
      | .ok (.file content _) =>
        match env.XzReader content with
        | .error err => (.error ("UnpackUpdater: XZReader error " ++ err), w)
        | .ok entries =>
          let r := extractEntries env t.UnpackPath entries w.fs
          match r.1 with
          | some err => (.error err, { w with fs := r.2 })
          | none => (.ok (BrowserDir env t), { w with fs := r.2 })

/-- `CheckSignature` of the source. -/
def CheckSignature (env : Env) (t : TBDownloader) (w : World) (binpath sigpath : String) :
    Res String × World :=
  match ReadFile w.fs (env.Join t.DownloadPath "TPO-signing-key.pub") with
  | .error err => (.error ("CheckSignature pkBytes: " ++ err), w)
  | .ok pkBytes =>
    match env.GetEntity pkBytes with
    | .error err => (.error ("CheckSignature pk: " ++ err), w)
    | .ok pk =>
      match ReadFile w.fs binpath with
      | .error err => (.error ("CheckSignature bin: " ++ err), w)
      | .ok bin =>
        match ReadFile w.fs sigpath with
        | .error err => (.error ("CheckSignature sig: " ++ err), w)
        | .ok sig =>
          match env.Verify pk sig bin with
          | .error _ => UnpackUpdater env t w binpath
          | .ok _ => (.error ("CheckSignature: " ++ "signature check failed"), w)

/-- `BoolCheckSignature` of the source. -/
def BoolCheckSignature (env : Env) (t : TBDownloader) (w : World) (binpath sigpath : String) :
    Bool × World :=
  let r := CheckSignature env t w binpath sigpath
  (r.1.isOk, r.2)

/-! ## Proxy readiness gate -/

/-- `Seconds` of the source; the one-second sleep is counted by the caller. -/
def Seconds (now : Int) : Int :=
  if now = 10 then 0 else now + 1

/-- `strings.Contains`. -/
def stringsContains (s substr : String) : Bool :=
  decide (substr.data <:+: s.data)

/-- `hTTPProxy` of the source, for the `n`-th request; `none` is the
`log.Panic` after a failed `url.Parse`. -/
def hTTPProxy (env : Env) (host port : String) (n : Nat) : Option Bool :=
  let proxyURL := "http://" ++ host ++ ":" ++ port
  if env.ParseURL proxyURL then
    match env.ProxyGet proxyURL n with
    | some body => some (stringsContains body "I2P HTTP proxy OK")
    | none => some false
  else none

/-- Local variables of `TestHTTPProxy`, with counters for the probes sent, the
seconds slept and the countdown values logged. -/
structure ProbeState where
  now : Int
  limit : Int
  probes : Nat
  slept : Nat
  logged : List Int
  deriving DecidableEq, Repr

/-- The `else` branch of the loop body of `TestHTTPProxy`, taken after a failed
probe: the countdown is logged and `limit` incremented when `now` is zero, then
`Seconds` sleeps one second and advances `now`. -/
def probeFailed (s : ProbeState) : ProbeState :=
  let s : ProbeState := { s with probes := s.probes + 1 }
  let s : ProbeState :=
    if s.now = 0 then { s with logged := s.logged ++ [10 - s.limit], limit := s.limit + 1 }
    else s
  { s with now := Seconds s.now, slept := s.slept + 1 }

/-- The `for` loop of `TestHTTPProxy`; the first argument bounds the number of
iterations, `none` means the bound was exhausted. -/
def TestHTTPProxyLoop (env : Env) (host port : String) :
    Nat → ProbeState → Option (Res Bool × ProbeState)
  | 0, _ => none
  | fuel + 1, s =>
    match hTTPProxy env host port s.probes with
    | none => some (.panic "url.Parse", { s with probes := s.probes + 1 })
    | some true => some (.ok true, { s with probes := s.probes + 1 })
    | some false =>
      if (probeFailed s).limit = 10 then some (.ok false, probeFailed s)
      else TestHTTPProxyLoop env host port fuel (probeFailed s)

/-- `TestHTTPProxy` of the source, run for at most `fuel` loop iterations. -/
def TestHTTPProxy (env : Env) (host port : String) (fuel : Nat) : Option (Res Bool × ProbeState) :=
  TestHTTPProxyLoop env host port fuel ⟨0, 0, 0, 0, []⟩

/-- The state in which the loop of `TestHTTPProxy` stops when every probe
fails. -/
def probeFinal : ProbeState := ⟨1, 10, 100, 100, [10, 9, 8, 7, 6, 5, 4, 3, 2, 1]⟩

/-! ## Concrete inputs -/

/-- The simple path join used for concrete runs: `a/b`, which is what
`filepath.Join` yields for clean operands. -/
def slashJoin (a b : String) : String := a ++ "/" ++ b

/-- Text before the last slash, which is what `filepath.Dir` yields for a clean
path containing a slash. -/
def slashDir (p : String) : String :=
  String.mk ((p.data.reverse.dropWhile (fun c => c != '/')).drop 1).reverse

/-- A concrete environment: linux/amd64, a decoder that rejects every input, a
server that answers every GET with the same body, subprocesses that succeed
without touching the filesystem, an archive decoder that yields no entry, a
verifier that accepts, and a proxy that never answers. -/
def env0 : Env where
  GOOS := "linux"
  GOARCH := "amd64"
  Join := slashJoin
  Dir := slashDir
  Unmarshal := fun _ => .error "unexpected end of JSON input"
  Get := fun _ => .ok "payload"
  Run := fun _ fs => (.ok (), fs)
  XzReader := fun _ => .ok []
  GetEntity := fun k => .ok k
  Verify := fun _ _ _ => .ok ()
  ParseURL := fun _ => true
  ProxyGet := fun _ _ => none

/-- The bundled assets: the signing key and the extension payload. -/
def profile0 : String → Option String := fun p =>
  if p = "tor-browser/TPO-signing-key.pub" then some "KEY"
  else if p = "tor-browser/unpack/awo@eyedeekay.github.io.xpi" then some "XPI"
  else none

/-- A downloader configured for linux/64 with default language `en`. -/
def t0 : TBDownloader where
  UnpackPath := "unpack"
  DownloadPath := "tor-browser"
  Lang := "en"
  OS := "linux"
  ARCH := "64"
  Verbose := false
  Profile := profile0

/-- The empty filesystem with an empty trace. -/
def w0 : World := ⟨fun _ => none, []⟩

/-- A filesystem on which the bundled assets are already materialised. -/
def fs1 : FS := fun p =>
  if p = "tor-browser" then some .dir
  else if p = "tor-browser/TPO-signing-key.pub" then some (.file "KEY" 420)
  else if p = "unpack/awo@eyedeekay.github.io.xpi" then some (.file "XPI" 420)
  else none

/-- The world of `fs1` with an empty trace. -/
def w1 : World := ⟨fs1, []⟩

/-- A manifest entry with its two URLs. -/
def entry (binary sig : String) : JSON :=
  .obj [("binary", .str binary), ("sig", .str sig)]

/-- Language map with entries for `en` and `fr-FR`. -/
def langsEnFrFR : List (String × JSON) :=
  [("en", entry "https://dist/en.tar.xz" "https://dist/en.tar.xz.asc"),
   ("fr-FR", entry "https://dist/fr-FR.tar.xz" "https://dist/fr-FR.tar.xz.asc")]

/-- The same language map with an entry for `fr` added. -/
def langsEnFrFRFr : List (String × JSON) :=
  langsEnFrFR ++ [("fr", entry "https://dist/fr.tar.xz" "https://dist/fr.tar.xz.asc")]

/-- A manifest with the given language map under the key `linux64`. -/
def manifest (langs : List (String × JSON)) : List (String × JSON) :=
  [("downloads", .obj [("linux64", .obj langs)])]

/-- The environment `env0` with a decoder that yields the given manifest. -/
def envWith (langs : List (String × JSON)) : Env :=
  { env0 with Unmarshal := fun _ => .ok (manifest langs) }

/-- The downloader `t0` with default language `de`. -/
def tDe : TBDownloader := { t0 with Lang := "de" }

/-- The downloader `t0` targeting `osx`. -/
def tOsx : TBDownloader := { t0 with OS := "osx" }

/-- A world in which the install directory of `t0` exists. -/
def wInstalled : World := ⟨fun p => if p = "unpack/tor-browser_en" then some .dir else none, []⟩

/-- A filesystem holding the trusted key, a binary and its detached signature. -/
def fsSigned : FS := fun p =>
  if p = "tor-browser/TPO-signing-key.pub" then some (.file "KEY" 420)
  else if p = "tor-browser/tb.tar.xz" then some (.file "BINARY" 420)
  else if p = "tor-browser/tb.tar.xz.asc" then some (.file "SIGNATURE" 420)
  else none

/-- The environment `env0` with a verifier that rejects. -/
def envReject : Env :=
  { env0 with Verify := fun _ _ _ => .error "openpgp: invalid signature" }

/-- The claim of install idempotence at one input: if the install directory
exists, `UnpackUpdater` only records its own entry, leaves the filesystem as it
is and returns the install directory. -/
def InstallIdempotent (env : Env) (t : TBDownloader) (w : World) (binpath : String) : Prop :=
  FileExists w.fs (BrowserDir env t) = true →
    UnpackUpdater env t w binpath =
      (.ok (BrowserDir env t), { w with trace := w.trace ++ [.unpackUpdater binpath] })

/-! ## Mirror -/

/-- `strings.Replace(s, "..", "", -1)` on the characters of `s`: every
non-overlapping occurrence of two dots, found from left to right, is dropped. -/
def removeDotDot : List Char → List Char
  | [] => []
  | [c] => [c]
  | c :: d :: rest =>
    if c = '.' ∧ d = '.' then removeDotDot rest else c :: removeDotDot (d :: rest)

/-- The scan of `filepath.Ext` from the end of the path, on the reversed
characters: stops with the empty result at a separator and with the collected
suffix at a dot. -/
def extScan : List Char → List Char → List Char
  | [], _ => []
  | c :: rest, acc =>
    if c = '/' then [] else if c = '.' then '.' :: acc else extScan rest (c :: acc)

/-- `filepath.Ext`: the suffix starting at the last dot of the last path
element, empty when there is none. -/
def filepathExt (path : String) : String :=
  String.mk (extScan path.data.reverse [])

/-- What `ServeHTTP` does with one request: the rewritten `r.URL.Path`, the
`Content-Type` header it sets, and the files handed to `http.ServeFile`. -/
structure Served where
  Path : String
  contentType : Option String
  files : List String
  deriving DecidableEq, Repr

/-- `ServeHTTP` of the source for a request whose `r.URL.Path` is `urlPath`. -/
def ServeHTTP (env : Env) (t : TBDownloader) (fs : FS) (urlPath : String) : Served :=
  let path := String.mk (removeDotDot urlPath.data)
  let ext := filepathExt path
  let json : Served :=
    if ext = ".json" then
      if FileExists fs (env.Join t.DownloadPath "mirror.json") then
        ⟨path, some "application/json", [env.Join t.DownloadPath "mirror.json"]⟩
      else ⟨path, some "application/json", []⟩
    else ⟨path, none, []⟩
  if FileExists fs (env.Join t.DownloadPath path) then
    { json with files := json.files ++ [env.Join t.DownloadPath path] }
  else json

/-- The downloader `t0` configured for a 32-bit target. -/
def t32 : TBDownloader := { t0 with ARCH := "32" }

/-- The environment `env0` with a decoder that yields an object without a
`downloads` key. -/
def envNoDownloads : Env :=
  { env0 with Unmarshal := fun _ => .ok [("version", .str "11.0")] }

/-- A downloader whose OS and ARCH were left empty, with default language
`en`. -/
def tAuto : TBDownloader := { t0 with OS := "", ARCH := "" }

/-- The receiver `tAuto` after auto-detection on darwin/amd64. -/
def tAutoDarwin : TBDownloader := { t0 with OS := "osx", ARCH := "64" }

/-- A darwin/amd64 environment whose decoder yields a manifest with the given
language map under the key `osx`. -/
def envDarwin (langs : List (String × JSON)) : Env :=
  { env0 with
    GOOS := "darwin"
    Unmarshal := fun _ => .ok [("downloads", .obj [("osx", .obj langs)])] }

/-! ## Platform key -/

/-- C4: a downloader configured with OS `osx` and ARCH `64` gets the key
`osx64` from `GetRuntimePair` in every environment, not the bare `osx` that the
auto-detecting path returns on darwin. -/
theorem GetRuntimePair_configured_osx (env : Env) :
    (GetRuntimePair env { t0 with OS := "osx", ARCH := "64" }).1 = "osx64" ∧
      (GetRuntimePair { env with GOOS := "darwin" } { t0 with OS := "", ARCH := "" }).1 = "osx" := by
  constructor
  · simp [GetRuntimePair, t0]
  · simp [GetRuntimePair, t0]

/-- C5: on darwin/amd64 a downloader whose OS and ARCH were left empty gets
`osx` from the first call of `GetRuntimePair` and `osx64` from the second. -/
theorem GetRuntimePair_darwin_twice :
    (GetRuntimePair { env0 with GOOS := "darwin" } { t0 with OS := "", ARCH := "" }).1 = "osx" ∧
      (GetRuntimePair { env0 with GOOS := "darwin" }
        (GetRuntimePair { env0 with GOOS := "darwin" } { t0 with OS := "", ARCH := "" }).2).1
        = "osx64" := by
  decide

/-! ## Download cache guard -/

/-- C6: `BotherToDownload` returns false exactly when the artifact exists and
the marker is a readable file whose content is the url. -/
theorem BotherToDownload_false_iff (env : Env) (t : TBDownloader) (fs : FS) (url name : String) :
    (BotherToDownload env t fs url name).1 = false ↔
      (FileExists fs (env.Join t.DownloadPath name) = true ∧
        ∃ m, fs (env.Join t.DownloadPath (name ++ ".last-url")) = some (.file url m) ∧
          readable m = true) := by
  unfold BotherToDownload
  by_cases hex : FileExists fs (env.Join t.DownloadPath name) = true
  · simp only [hex, Bool.not_true, Bool.false_eq_true, if_false, true_and]
    unfold ReadFile
    cases hm : fs (env.Join t.DownloadPath (name ++ ".last-url")) with
    | none => simp
    | some n =>
      cases n with
      | dir => simp
      | file c m =>
        by_cases hr : readable m = true
        · by_cases hc : c = url
          · simp [hr, hc]
          · simp [hr, hc]
        · simp [hr]
  · simp [hex]

/-- C7: in an empty download directory `BotherToDownload` returns true and
leaves the marker absent. -/
theorem BotherToDownload_absent_artifact_no_marker :
    (BotherToDownload env0 t0 w0.fs "https://example.org/tb.tar.xz" "tb.tar.xz").1 = true ∧
      (BotherToDownload env0 t0 w0.fs "https://example.org/tb.tar.xz" "tb.tar.xz").2
        "tor-browser/tb.tar.xz.last-url" = none := by
  decide


/-- C8: starting from an empty directory, the second `SingleFileDownload` of
the same url still gets `true` from `BotherToDownload` and fetches again. -/
theorem SingleFileDownload_second_run_fetches_again :
    (SingleFileDownload env0 t0 w0 "https://example.org/tb.tar.xz" "tb.tar.xz").1
        = .ok "tor-browser/tb.tar.xz" ∧
      (SingleFileDownload env0 t0 w0 "https://example.org/tb.tar.xz" "tb.tar.xz").2.trace
        = [.httpGet "https://example.org/tb.tar.xz"] ∧
      (SingleFileDownload env0 t0 w0 "https://example.org/tb.tar.xz" "tb.tar.xz").2.fs
        "tor-browser/tb.tar.xz" = some (.file "payload" 438) ∧
      (SingleFileDownload env0 t0 w0 "https://example.org/tb.tar.xz" "tb.tar.xz").2.fs
        "tor-browser/tb.tar.xz.last-url" = none ∧
      (BotherToDownload env0 t0
        (SingleFileDownload env0 t0 w0 "https://example.org/tb.tar.xz" "tb.tar.xz").2.fs
        "https://example.org/tb.tar.xz" "tb.tar.xz").1 = true ∧
      (SingleFileDownload env0 t0
        (SingleFileDownload env0 t0 w0 "https://example.org/tb.tar.xz" "tb.tar.xz").2
        "https://example.org/tb.tar.xz" "tb.tar.xz").2.trace
        = [.httpGet "https://example.org/tb.tar.xz", .httpGet "https://example.org/tb.tar.xz"] := by
  decide


/-! ## Installer -/

/-- C9 as stated fails on `osx`: with the install directory present,
`UnpackUpdater` still runs the `open` helper and returns the unpack root. -/
theorem UnpackUpdater_osx_not_idempotent :
    ¬ InstallIdempotent env0 tOsx wInstalled "tor-browser/tb.dmg" := by
  intro h
  have h1 := congrArg Prod.fst (h (by decide))
  revert h1
  decide

/-- C9 amended: for every target other than `osx` (the `win` target and the
archive-based default), if the install directory exists then `UnpackUpdater`
starts no subprocess, extracts nothing, leaves the filesystem unchanged and
returns the install directory without error. -/
theorem UnpackUpdater_idempotent (env : Env) (t : TBDownloader) (w : World) (binpath : String)
    (hos : t.OS ≠ "osx") : InstallIdempotent env t w binpath := by
  intro hex
  unfold UnpackUpdater
  by_cases hw : t.OS = "win"
  · simp [hw, hex]
  · simp [hw, hos, hex]

/-- Witness for C9 amended: the default target with its install directory
present. -/
theorem UnpackUpdater_idempotent_witness :
    t0.OS ≠ "osx" ∧ FileExists wInstalled.fs (BrowserDir env0 t0) = true ∧
      UnpackUpdater env0 t0 wInstalled "tor-browser/tb.tar.xz" =
        (.ok (BrowserDir env0 t0),
          { wInstalled with trace := wInstalled.trace ++ [.unpackUpdater "tor-browser/tb.tar.xz"] }) :=
  ⟨by decide, by decide,
    UnpackUpdater_idempotent env0 t0 wInstalled "tor-browser/tb.tar.xz" (by decide) (by decide)⟩

/-! ## Signature gate -/

/-- C1: when the verifier accepts, `CheckSignature` returns the error
"signature check failed" without entering `UnpackUpdater`; when the verifier
rejects, it enters `UnpackUpdater` and `BoolCheckSignature` returns true. -/
theorem CheckSignature_inverted :
    (CheckSignature env0 t0 ⟨fsSigned, []⟩ "tor-browser/tb.tar.xz" "tor-browser/tb.tar.xz.asc").1
        = .error "CheckSignature: signature check failed" ∧
      (CheckSignature env0 t0 ⟨fsSigned, []⟩ "tor-browser/tb.tar.xz" "tor-browser/tb.tar.xz.asc").2.trace
        = [] ∧
      (BoolCheckSignature env0 t0 ⟨fsSigned, []⟩ "tor-browser/tb.tar.xz" "tor-browser/tb.tar.xz.asc").1
        = false ∧
      (CheckSignature envReject t0 ⟨fsSigned, []⟩ "tor-browser/tb.tar.xz" "tor-browser/tb.tar.xz.asc").2.trace
        = [.unpackUpdater "tor-browser/tb.tar.xz"] ∧
      (BoolCheckSignature envReject t0 ⟨fsSigned, []⟩ "tor-browser/tb.tar.xz" "tor-browser/tb.tar.xz.asc").1
        = true := by
  decide


/-! ## Proxy readiness gate -/

/-- More iterations do not change a result already reached. -/
theorem TestHTTPProxyLoop_mono (env : Env) (host port : String) :
    ∀ (fuel : Nat) (s : ProbeState) (r : Res Bool × ProbeState),
      TestHTTPProxyLoop env host port fuel s = some r →
        ∀ k, TestHTTPProxyLoop env host port (fuel + k) s = some r := by
  intro fuel
  induction fuel with
  | zero => intro s r h; simp [TestHTTPProxyLoop] at h
  | succ n ih =>
    intro s r h k
    have hk : n + 1 + k = (n + k) + 1 := by omega
    rw [hk]
    unfold TestHTTPProxyLoop at h ⊢
    cases hp : hTTPProxy env host port s.probes with
    | none => simpa [hp] using h
    | some b =>
      cases b with
      | true => simpa [hp] using h
      | false =>
        simp only [hp] at h ⊢
        by_cases hl : (probeFailed s).limit = 10
        · simpa [hl] using h
        · simp only [hl, if_false] at h ⊢
          exact ih _ _ h k

/-- When every probe fails the loop does not depend on the environment. -/
theorem TestHTTPProxyLoop_all_fail (env : Env) (host port : String)
    (hfail : ∀ n, hTTPProxy env host port n = some false) :
    ∀ (fuel : Nat) (s : ProbeState),
      TestHTTPProxyLoop env host port fuel s = TestHTTPProxyLoop env0 "" "" fuel s := by
  intro fuel
  induction fuel with
  | zero => intro s; rfl
  | succ n ih =>
    intro s
    have h0 : hTTPProxy env0 "" "" s.probes = some false := by
      simp [hTTPProxy, env0]
    unfold TestHTTPProxyLoop
    simp only [hfail, h0]
    by_cases hl : (probeFailed s).limit = 10
    · simp [hl]
    · simp only [hl, if_false]
      exact ih _

set_option maxRecDepth 100000

/-- The all-fail run on the concrete environment stops at the hundredth
iteration. -/
theorem TestHTTPProxyLoop_env0_100 :
    TestHTTPProxyLoop env0 "" "" 100 ⟨0, 0, 0, 0, []⟩ = some (.ok false, probeFinal) := by
  decide

/-- The all-fail run is still going after ninety-nine iterations. -/
theorem TestHTTPProxyLoop_env0_99 :
    TestHTTPProxyLoop env0 "" "" 99 ⟨0, 0, 0, 0, []⟩ = none := by
  decide


/-- C10 as stated fails: against a proxy that never answers, no run of
`TestHTTPProxy` returns false with exactly 10 probes sent. -/
theorem TestHTTPProxy_not_ten_probes :
    ¬ ∃ fuel s, TestHTTPProxy env0 "127.0.0.1" "4444" fuel = some (.ok false, s) ∧
      s.probes = 10 := by
  rintro ⟨fuel, s, h, hp⟩
  have hfail : ∀ n, hTTPProxy env0 "127.0.0.1" "4444" n = some false := by
    intro n; simp [hTTPProxy, env0]
  unfold TestHTTPProxy at h
  rw [TestHTTPProxyLoop_all_fail env0 _ _ hfail] at h
  have h100 := TestHTTPProxyLoop_env0_100
  rcases Nat.le_total fuel 100 with hle | hle
  · have hm := TestHTTPProxyLoop_mono env0 "" "" fuel _ _ h (100 - fuel)
    rw [Nat.add_sub_cancel' hle, h100] at hm
    have hs : probeFinal = s := congrArg Prod.snd (Option.some.inj hm)
    rw [← hs] at hp
    revert hp
    decide
  · have hm := TestHTTPProxyLoop_mono env0 "" "" 100 _ _ h100 (fuel - 100)
    rw [Nat.add_sub_cancel' hle, h] at hm
    have hs : s = probeFinal := congrArg Prod.snd (Option.some.inj hm)
    rw [hs] at hp
    revert hp
    decide

/-- C10 amended: when every probe fails, `TestHTTPProxy` terminates and returns
false after exactly 100 probes and 100 one-second sleeps of `Seconds`, having
logged the countdown 10, 9, ..., 1; fewer than 100 loop iterations do not reach
the return. -/
theorem TestHTTPProxy_all_fail (env : Env) (host port : String)
    (hfail : ∀ n, hTTPProxy env host port n = some false) :
    (∀ fuel, 100 ≤ fuel → TestHTTPProxy env host port fuel = some (.ok false, probeFinal)) ∧
      (∀ fuel, fuel < 100 → TestHTTPProxy env host port fuel = none) := by
  constructor
  · intro fuel hle
    unfold TestHTTPProxy
    rw [TestHTTPProxyLoop_all_fail env host port hfail]
    have hm := TestHTTPProxyLoop_mono env0 "" "" 100 _ _ TestHTTPProxyLoop_env0_100 (fuel - 100)
    rwa [Nat.add_sub_cancel' hle] at hm
  · intro fuel hlt
    unfold TestHTTPProxy
    rw [TestHTTPProxyLoop_all_fail env host port hfail]
    cases hr : TestHTTPProxyLoop env0 "" "" fuel ⟨0, 0, 0, 0, []⟩ with
    | none => rfl
    | some r =>
      have hm := TestHTTPProxyLoop_mono env0 "" "" fuel _ _ hr (99 - fuel)
      have hle : fuel ≤ 99 := by omega
      rw [Nat.add_sub_cancel' hle, TestHTTPProxyLoop_env0_99] at hm
      cases hm

/-- Witness for C10 amended: the default proxy address with no proxy
listening. -/
theorem TestHTTPProxy_all_fail_witness :
    (∀ n, hTTPProxy env0 "127.0.0.1" "4444" n = some false) ∧
      TestHTTPProxy env0 "127.0.0.1" "4444" 100 = some (.ok false, probeFinal) ∧
      TestHTTPProxy env0 "127.0.0.1" "4444" 10 = none :=
  ⟨fun n => by simp [hTTPProxy, env0],
    (TestHTTPProxy_all_fail env0 "127.0.0.1" "4444" (fun n => by simp [hTTPProxy, env0])).1 100
      (by decide),
    (TestHTTPProxy_all_fail env0 "127.0.0.1" "4444" (fun n => by simp [hTTPProxy, env0])).2 10
      (by decide)⟩


/-! ## Manifest resolver -/

/-- Auto-detection does not touch the default language. -/
theorem GetRuntimePair_Lang (env : Env) (t : TBDownloader) :
    (GetRuntimePair env t).2.Lang = t.Lang := by
  unfold GetRuntimePair
  dsimp only
  split_ifs <;> rfl

/-- A configured downloader is left as it is and gets the concatenated key. -/
theorem GetRuntimePair_configured (env : Env) (t : TBDownloader) (hos : t.OS ≠ "")
    (harch : t.ARCH ≠ "") : GetRuntimePair env t = (t.OS ++ t.ARCH, t) := by
  simp [GetRuntimePair, hos, harch]

/-- An entry holding two strings yields them. -/
theorem entryURLs_ok (m : List (String × JSON)) (b s : String)
    (hb : lookup "binary" m = some (.str b)) (hs : lookup "sig" m = some (.str s)) :
    entryURLs (.obj m) = .ok (b, s) := by
  simp [entryURLs, hb, hs]

/-- One call of the resolver on a manifest that has the platform key. -/
theorem GetUpdaterForLangFromJSONBytes_step (env : Env) (fuel : Nat) (t : TBDownloader)
    (w : World) (jsonBytes ietf : String) (fs : FS) (dat platforms updater : List (String × JSON))
    (hmk : MakeTBDirectory env t w.fs = .ok fs)
    (hjson : env.Unmarshal jsonBytes = .ok dat)
    (hdl : lookup "downloads" dat = some (.obj platforms))
    (hplat : lookup (GetRuntimePair env t).1 platforms = some (.obj updater)) :
    GetUpdaterForLangFromJSONBytes env (fuel + 1) t w jsonBytes ietf =
      match lookup ietf updater with
      | some langUpdater => some (entryURLs langUpdater, (GetRuntimePair env t).2, { w with fs := fs })
      | none =>
        match lookup (primarySubtag ietf) updater with
        | some langUpdater =>
          some (entryURLs langUpdater, (GetRuntimePair env t).2, { w with fs := fs })
        | none =>
          GetUpdaterForLangFromJSONBytes env fuel (GetRuntimePair env t).2 { w with fs := fs }
            jsonBytes t.Lang := by
  rw [GetUpdaterForLangFromJSONBytes]
  simp only [hmk, hjson, hdl, hplat, GetRuntimePair_Lang]

/-- One call of the resolver on a manifest whose `downloads` map has the
platform key, case by case: the URLs of the entry for the exact tag if there is
one, otherwise of the entry for the text before the first hyphen if there is
one, otherwise the recursive call on the default `Lang`, made on the receiver as
`GetRuntimePair` left it. -/
theorem GetUpdaterForLangFromJSONBytes_fallback (env : Env) (fuel : Nat) (t : TBDownloader)
    (w : World) (jsonBytes ietf : String) (fs : FS) (dat platforms updater : List (String × JSON))
    (hmk : MakeTBDirectory env t w.fs = .ok fs)
    (hjson : env.Unmarshal jsonBytes = .ok dat)
    (hdl : lookup "downloads" dat = some (.obj platforms))
    (hplat : lookup (GetRuntimePair env t).1 platforms = some (.obj updater)) :
    (∀ m b s, lookup ietf updater = some (.obj m) → lookup "binary" m = some (.str b) →
        lookup "sig" m = some (.str s) →
        GetUpdaterForLangFromJSONBytes env (fuel + 1) t w jsonBytes ietf =
          some (.ok (b, s), (GetRuntimePair env t).2, { w with fs := fs })) ∧
      (∀ m b s, lookup ietf updater = none →
        lookup (primarySubtag ietf) updater = some (.obj m) →
        lookup "binary" m = some (.str b) → lookup "sig" m = some (.str s) →
        GetUpdaterForLangFromJSONBytes env (fuel + 1) t w jsonBytes ietf =
          some (.ok (b, s), (GetRuntimePair env t).2, { w with fs := fs })) ∧
      (lookup ietf updater = none → lookup (primarySubtag ietf) updater = none →
        GetUpdaterForLangFromJSONBytes env (fuel + 1) t w jsonBytes ietf =
          GetUpdaterForLangFromJSONBytes env fuel (GetRuntimePair env t).2 { w with fs := fs }
            jsonBytes t.Lang) := by
  have hstep := GetUpdaterForLangFromJSONBytes_step env fuel t w jsonBytes ietf fs dat platforms
    updater hmk hjson hdl hplat
  refine ⟨?_, ?_, ?_⟩
  · intro m b s h1 hb hs
    simp only [hstep, h1, entryURLs_ok m b s hb hs]
  · intro m b s h1 h2 hb hs
    simp only [hstep, h1, h2, entryURLs_ok m b s hb hs]
  · intro h1 h2
    simp only [hstep, h1, h2]

/-- On a downloader configured for linux/64: with entries `en` and `fr-FR` and
default `en`, the request `fr-CA` resolves to the `en` entry, and to the `fr`
entry once one is added. -/
theorem GetUpdaterForLangFromJSONBytes_fallback_witness :
    MakeTBDirectory (envWith langsEnFrFR) t0 w1.fs = .ok fs1 ∧
      lookup "fr-CA" langsEnFrFR = none ∧ lookup (primarySubtag "fr-CA") langsEnFrFR = none ∧
      GetUpdaterForLangFromJSONBytes (envWith langsEnFrFR) 2 t0 w1 "manifest" "fr-CA" =
        some (.ok ("https://dist/en.tar.xz", "https://dist/en.tar.xz.asc"), t0, w1) ∧
      GetUpdaterForLangFromJSONBytes (envWith langsEnFrFRFr) 1 t0 w1 "manifest" "fr-CA" =
        some (.ok ("https://dist/fr.tar.xz", "https://dist/fr.tar.xz.asc"), t0, w1) :=
  ⟨rfl, rfl, rfl,
    ((GetUpdaterForLangFromJSONBytes_fallback (envWith langsEnFrFR) 1 t0 w1 "manifest" "fr-CA" fs1
        (manifest langsEnFrFR) [("linux64", .obj langsEnFrFR)] langsEnFrFR rfl rfl rfl rfl).2.2
        rfl rfl).trans
      ((GetUpdaterForLangFromJSONBytes_fallback (envWith langsEnFrFR) 0 t0 w1 "manifest" "en" fs1
        (manifest langsEnFrFR) [("linux64", .obj langsEnFrFR)] langsEnFrFR rfl rfl rfl rfl).1
        _ _ _ rfl rfl rfl),
    (GetUpdaterForLangFromJSONBytes_fallback (envWith langsEnFrFRFr) 0 t0 w1 "manifest" "fr-CA" fs1
        (manifest langsEnFrFRFr) [("linux64", .obj langsEnFrFRFr)] langsEnFrFRFr rfl rfl rfl
        rfl).2.1 _ _ _ rfl rfl rfl rfl⟩

/-- With a configured platform present in the manifest and neither the default
`Lang` nor its primary subtag among the entries, resolving the default `Lang`
never returns, whatever the recursion bound. -/
theorem GetUpdaterForLangFromJSONBytes_default_missing (env : Env) (t : TBDownloader) (w : World)
    (jsonBytes : String) (dat platforms updater : List (String × JSON))
    (hmk : MakeTBDirectory env t w.fs = .ok w.fs)
    (hjson : env.Unmarshal jsonBytes = .ok dat)
    (hdl : lookup "downloads" dat = some (.obj platforms))
    (hos : t.OS ≠ "") (harch : t.ARCH ≠ "")
    (hplat : lookup (t.OS ++ t.ARCH) platforms = some (.obj updater))
    (h1 : lookup t.Lang updater = none) (h2 : lookup (primarySubtag t.Lang) updater = none) :
    ∀ fuel, GetUpdaterForLangFromJSONBytes env fuel t w jsonBytes t.Lang = none := by
  have hrt := GetRuntimePair_configured env t hos harch
  intro fuel
  induction fuel with
  | zero => rw [GetUpdaterForLangFromJSONBytes]
  | succ n ih =>
    rw [GetUpdaterForLangFromJSONBytes_step env n t w jsonBytes t.Lang w.fs dat platforms updater
      hmk hjson hdl (by rw [hrt]; exact hplat)]
    simp only [h1, h2, hrt]
    exact ih

/-- C3: with entries `en` and `fr-FR` only and default `Lang` `de`, the request
`es-MX` never returns: every recursion bound is exhausted. -/
theorem GetUpdaterForLangFromJSONBytes_unresolved_diverges :
    ∀ fuel, GetUpdaterForLangFromJSONBytes (envWith langsEnFrFR) fuel tDe w1 "manifest" "es-MX"
      = none := by
  intro fuel
  cases fuel with
  | zero => rw [GetUpdaterForLangFromJSONBytes]
  | succ n =>
    have hmk : MakeTBDirectory (envWith langsEnFrFR) tDe w1.fs = .ok w1.fs := rfl
    rw [GetUpdaterForLangFromJSONBytes_step (envWith langsEnFrFR) n tDe w1 "manifest" "es-MX"
      w1.fs (manifest langsEnFrFR) [("linux64", .obj langsEnFrFR)] langsEnFrFR hmk rfl rfl rfl]
    have h1 : lookup "es-MX" langsEnFrFR = none := rfl
    have h2 : lookup (primarySubtag "es-MX") langsEnFrFR = none := rfl
    have hrt : (GetRuntimePair (envWith langsEnFrFR) tDe).2 = tDe := rfl
    simp only [h1, h2, hrt]
    exact GetUpdaterForLangFromJSONBytes_default_missing (envWith langsEnFrFR) tDe w1 "manifest"
      (manifest langsEnFrFR) [("linux64", .obj langsEnFrFR)] langsEnFrFR hmk rfl rfl
      (by decide) (by decide) rfl rfl rfl n

/-- C2: on darwin/amd64 with OS and ARCH left empty, default `en` and a
manifest holding `en` and `fr-FR` under the key `osx`, resolving `en` returns
the `en` entry, but the request `fr-CA`, which misses both lookups and falls
back to `en`, returns the error `no updater for platform osx64`. -/
theorem GetUpdaterForLangFromJSONBytes_darwin_fallback_platform_error :
    (GetRuntimePair (envDarwin langsEnFrFR) tAuto).1 = "osx" ∧
      lookup "fr-CA" langsEnFrFR = none ∧ lookup (primarySubtag "fr-CA") langsEnFrFR = none ∧
      (∀ fuel, GetUpdaterForLangFromJSONBytes (envDarwin langsEnFrFR) (fuel + 1) tAuto w1
          "manifest" "en" =
        some (.ok ("https://dist/en.tar.xz", "https://dist/en.tar.xz.asc"), tAutoDarwin, w1)) ∧
      (∀ fuel, GetUpdaterForLangFromJSONBytes (envDarwin langsEnFrFR) (fuel + 2) tAuto w1
          "manifest" "fr-CA" =
        some (.error "t.GetUpdaterForLangFromJSONBytes: no updater for platform osx64",
          tAutoDarwin, w1)) := by
  refine ⟨rfl, rfl, rfl, ?_, ?_⟩
  · intro fuel
    rfl
  · intro fuel
    rfl

/-- C11: on a manifest whose `downloads` map has no entry for the platform
key, one call of the resolver returns the error naming the platform (the
source's `return "", "", fmt.Errorf(...)`), whatever the requested tag, the
default `Lang` and the recursion bound left, so no fallback call is made; on a
manifest without a `downloads` key it returns an error as well. -/
theorem GetUpdaterForLangFromJSONBytes_platform_missing (env : Env) (fuel : Nat)
    (t : TBDownloader) (w : World) (jsonBytes ietf : String) (fs : FS)
    (dat : List (String × JSON))
    (hmk : MakeTBDirectory env t w.fs = .ok fs)
    (hjson : env.Unmarshal jsonBytes = .ok dat) :
    (∀ platforms, lookup "downloads" dat = some (.obj platforms) →
        lookup (GetRuntimePair env t).1 platforms = none →
        GetUpdaterForLangFromJSONBytes env (fuel + 1) t w jsonBytes ietf =
          some (.error ("t.GetUpdaterForLangFromJSONBytes: no updater for platform " ++
              (GetRuntimePair env t).1),
            (GetRuntimePair env t).2, { w with fs := fs })) ∧
      (lookup "downloads" dat = none →
        GetUpdaterForLangFromJSONBytes env (fuel + 1) t w jsonBytes ietf =
          some (.error ("t.GetUpdaterForLangFromJSONBytes: " ++ ietf), t, { w with fs := fs })) := by
  constructor
  · intro platforms hdl hplat
    rw [GetUpdaterForLangFromJSONBytes]
    simp only [hmk, hjson, hdl, hplat]
  · intro hdl
    rw [GetUpdaterForLangFromJSONBytes]
    simp only [hmk, hjson, hdl]

/-- Witness for C11: a 32-bit downloader against a manifest that lists only
`linux64`, and a manifest without `downloads`. -/
theorem GetUpdaterForLangFromJSONBytes_platform_missing_witness :
    MakeTBDirectory (envWith langsEnFrFR) t32 w1.fs = .ok fs1 ∧
      lookup (GetRuntimePair (envWith langsEnFrFR) t32).1 [("linux64", JSON.obj langsEnFrFR)]
        = none ∧
      GetUpdaterForLangFromJSONBytes (envWith langsEnFrFR) 1 t32 w1 "manifest" "en" =
        some (.error "t.GetUpdaterForLangFromJSONBytes: no updater for platform linux32",
          t32, w1) ∧
      GetUpdaterForLangFromJSONBytes envNoDownloads 1 t32 w1 "manifest" "en" =
        some (.error "t.GetUpdaterForLangFromJSONBytes: en", t32, w1) :=
  ⟨rfl, rfl,
    (GetUpdaterForLangFromJSONBytes_platform_missing (envWith langsEnFrFR) 0 t32 w1 "manifest"
      "en" fs1 (manifest langsEnFrFR) rfl rfl).1 [("linux64", .obj langsEnFrFR)] rfl rfl,
    (GetUpdaterForLangFromJSONBytes_platform_missing envNoDownloads 0 t32 w1 "manifest"
      "en" fs1 [("version", .str "11.0")] rfl rfl).2 rfl⟩

/-! ## Mirror -/

/-- A character other than a dot is copied and the scan goes on behind it. -/
theorem removeDotDot_cons_of_ne (d : Char) (rest : List Char) (hd : d ≠ '.') :
    removeDotDot (d :: rest) = d :: removeDotDot rest := by
  cases rest with
  | nil => simp [removeDotDot]
  | cons e r => simp [removeDotDot, hd]

/-- No two adjacent dots are left by `removeDotDot`. -/
theorem removeDotDot_no_dotdot (l : List Char) : ¬ (['.', '.'] <:+: removeDotDot l) := by
  induction l using removeDotDot.induct with
  | case1 => simp [removeDotDot]
  | case2 c =>
    simp only [removeDotDot]
    intro h
    have := h.length_le
    simp at this
  | case3 c d rest h ih =>
    rw [removeDotDot, if_pos h]
    exact ih
  | case4 c d rest h ih =>
    rw [removeDotDot, if_neg h]
    rw [List.infix_cons_iff]
    rintro (hp | hi)
    · rw [List.cons_prefix_cons] at hp
      obtain ⟨hc, hp⟩ := hp
      have hd : d ≠ '.' := fun hd => h ⟨hc.symm, hd⟩
      rw [removeDotDot_cons_of_ne d rest hd, List.cons_prefix_cons] at hp
      exact hd hp.1.symm
    · exact ih hi

/-- C12: for every request path, the path that `ServeHTTP` joins onto
`DownloadPath` for lookup contains no occurrence of two adjacent dots. -/
theorem ServeHTTP_path_no_dotdot (env : Env) (t : TBDownloader) (fs : FS) (urlPath : String) :
    (ServeHTTP env t fs urlPath).Path = String.mk (removeDotDot urlPath.data) ∧
      stringsContains (ServeHTTP env t fs urlPath).Path ".." = false ∧
      ∀ f ∈ (ServeHTTP env t fs urlPath).files,
        f = env.Join t.DownloadPath "mirror.json" ∨
          f = env.Join t.DownloadPath (ServeHTTP env t fs urlPath).Path := by
  have hpath : (ServeHTTP env t fs urlPath).Path = String.mk (removeDotDot urlPath.data) := by
    unfold ServeHTTP
    dsimp only
    split_ifs <;> rfl
  refine ⟨hpath, ?_, ?_⟩
  · rw [hpath]
    simp only [stringsContains, decide_eq_false_iff_not]
    exact removeDotDot_no_dotdot urlPath.data
  · rw [hpath]
    unfold ServeHTTP
    dsimp only
    split_ifs <;> simp

end Tbget
